import Mathlib

set_option maxHeartbeats 1000000

/-!
Verification development for the pyroute2 NDB synchronization engine
(`src/pyroute2/ndb/main.py`) and the nftables expression codec
(`src/pyroute2/nftables/parser/expr.py`).

The Python code is shallowly embedded: pure fragments become Lean
functions, the stateful dispatch loop becomes an explicit fold over the
event queue, and the concurrent initialization (`__initdb__` plus the
source threads it spawns) becomes a small-step scheduler relation.
-/

namespace Pyroute2

/-! ## Dispatch loop model — `NDB.__dbm__`, main.py lines 350-394

Events are Python objects routed by runtime class (`event.__class__`);
we model a class as a `Nat` tag.  An event may itself be an exception
object (`isinstance(event, Exception)`); the three relevant exception
shapes are the two control signals (`InvalidateHandlerException`,
`ShutdownException`) and "any other exception".  A handler is a Python
callable compared by identity (`handlers.remove`); we model it as a
`Nat` identifier and obtain its invocation outcome from an explicit
behaviour function. -/

abbrev Target := String

/-- Exception shape: the two control signals of main.py lines 81-86,
and every other exception collapsed into `other`. -/
inductive Exn
  | invalidate
  | shutdown
  | other
deriving DecidableEq, Repr

/-- A decoded event: its runtime class tag, and—when the event object is
itself an exception—its exception shape. -/
structure Event where
  cls : Nat
  exn : Option Exn := none
deriving DecidableEq, Repr

/-- Outcome of one handler invocation: normal return, or a raised
exception of the given shape. -/
inductive HResult
  | ok
  | raised (e : Exn)
deriving DecidableEq, Repr

abbrev Handler := Nat

/-- Invocation outcome of every registered handler on every
(target, event) pair. -/
abbrev Behavior := Handler → Target → Event → HResult

/-- `self._event_map`: runtime class tag → ordered handler list.
Modelled as an association list, insertion order preserved. -/
abbrev EventMap := List (Nat × List Handler)

/-- `event_map.get(cls)` — `none` when the class has no entry. -/
def emGet : EventMap → Nat → Option (List Handler)
  | [], _ => none
  | (k, hs) :: rest, c => if k = c then some hs else emGet rest c

/-- Replace the handler list stored for class `c` (in-place mutation of
the list object returned by `event_map.get`). -/
def emSet : EventMap → Nat → List Handler → EventMap
  | [], c, v => [(c, v)]
  | (k, hs) :: rest, c, v =>
      if k = c then (k, v) :: rest else (k, hs) :: emSet rest c v

/-- Entries written by `log.error` / `logging.warning` on the paths of
main.py lines 360 and 379-389. -/
inductive LogEntry
  | unsupported (cls : Nat)
  | loadError
  | invalidateError
deriving DecidableEq, Repr

/-- Result of the per-event handler pass. -/
structure HandlersResult where
  live : List Handler
  invoked : List Handler
  log : List LogEntry
  terminated : Bool
deriving DecidableEq, Repr

/-- The inner loop of main.py lines 376-389: iterate over the snapshot
`tuple(handlers)` while removals mutate the live list.  On
`InvalidateHandlerException` the handler is removed from the live list
(`handlers.remove`, which logs an error instead when the handler is
absent); on `ShutdownException` the whole loop returns; on any other
exception the fault is logged and iteration continues. -/
def runHandlers (invoke : Handler → HResult) :
    List Handler → List Handler → HandlersResult
  | [], live => ⟨live, [], [], false⟩
  | h :: rest, live =>
    match invoke h with
    | .ok =>
        let r := runHandlers invoke rest live
        ⟨r.live, h :: r.invoked, r.log, r.terminated⟩
    | .raised .invalidate =>
        if h ∈ live then
          let r := runHandlers invoke rest (live.erase h)
          ⟨r.live, h :: r.invoked, r.log, r.terminated⟩
        else
          let r := runHandlers invoke rest live
          ⟨r.live, h :: r.invoked, .invalidateError :: r.log, r.terminated⟩
    | .raised .shutdown => ⟨live, [h], [], true⟩
    | .raised .other =>
        let r := runHandlers invoke rest live
        ⟨r.live, h :: r.invoked, .loadError :: r.log, r.terminated⟩

/-- Which callable ran: a registered handler, or the built-in
`default_handler` of main.py lines 357-360. -/
inductive Callee
  | reg (h : Handler)
  | default
deriving DecidableEq, Repr

/-- Result of dispatching one event. -/
structure EvResult where
  em : EventMap
  invoked : List Callee
  log : List LogEntry
  terminated : Bool
deriving DecidableEq, Repr

/-- Dispatch of one event (main.py lines 374-389).

`event_map.get(event.__class__, [default_handler])` falls back to the
default handler only when the class has no entry at all.  The default
handler re-raises exception-shaped events and logs other events as
unsupported; the raise is then caught by the surrounding
`except` clauses: `ShutdownException` returns from the loop,
`InvalidateHandlerException` removes the default handler from the
fresh one-element list (leaving the event map untouched), and any
other exception is logged as a load error. -/
def processEvent (β : Behavior) (em : EventMap) (t : Target) (ev : Event) :
    EvResult :=
  match emGet em ev.cls with
  | some hs =>
      let r := runHandlers (fun h => β h t ev) hs hs
      ⟨emSet em ev.cls r.live, r.invoked.map .reg, r.log, r.terminated⟩
  | none =>
      match ev.exn with
      | some .shutdown => ⟨em, [.default], [], true⟩
      | some .invalidate => ⟨em, [.default], [], false⟩
      | some .other => ⟨em, [.default], [.loadError], false⟩
      | none => ⟨em, [.default], [.unsupported ev.cls], false⟩

/-- Result of draining (a prefix of) the event queue. -/
structure LoopResult where
  em : EventMap
  applied : List (Target × Event)
  log : List LogEntry
  terminated : Bool
deriving DecidableEq, Repr

/-- One batch (main.py line 374): events dispatched in batch order; a
shutdown abandons the remainder.  The time-gated garbage sweep of lines
390-394 touches only the weak-reference set and is elided. -/
def runBatch (β : Behavior) (em : EventMap) (t : Target) :
    List Event → LoopResult
  | [] => ⟨em, [], [], false⟩
  | ev :: rest =>
      let r := processEvent β em t ev
      if r.terminated then ⟨r.em, [(t, ev)], r.log, true⟩
      else
        let r2 := runBatch β r.em t rest
        ⟨r2.em, (t, ev) :: r2.applied, r.log ++ r2.log, r2.terminated⟩

/-- The `while True` loop of main.py line 372, run on a finite prefix of
the queue contents: batches dequeued in FIFO order. -/
def runLoop (β : Behavior) (em : EventMap) :
    List (Target × List Event) → LoopResult
  | [] => ⟨em, [], [], false⟩
  | (t, evs) :: rest =>
      let r := runBatch β em t evs
      if r.terminated then r
      else
        let r2 := runLoop β r.em rest
        ⟨r2.em, r.applied ++ r2.applied, r.log ++ r2.log, r2.terminated⟩

/-! ## Weak-bound handler — `wr_handler`, main.py lines 111-118

`wr` is the weak reference; `call o` is the outcome of
`getattr(o, fname)(*argv)` on a live referent `o`.  When the referent
is gone, `getattr(wr(), fname)` raises (the referent is `None`), the
`except` block observes `wr() is None` and raises
`InvalidateHandlerException`; otherwise the original exception is
re-raised unchanged.  The model is sequential, so the two `wr()` reads
see the same referent. -/
def wr_handler {α : Type} (referent : Option α) (call : α → HResult) :
    HResult :=
  match referent with
  | none => .raised .invalidate
  | some o => call o

/-! ## CSV projection — `View.csv`, main.py lines 182-194 -/

/-- One field of a dump record: Python `int`, `None`, or any other
value rendered through `'%s'`. -/
inductive Field
  | int (n : Int)
  | null
  | str (s : String)
deriving DecidableEq, Repr

/-- Field rendering of main.py lines 187-193: integers through
`'%i'`, `None` as the empty string, everything else single-quoted. -/
def csvField : Field → String
  | .int n => toString n
  | .null => ""
  | .str s => "'" ++ s ++ "'"

namespace View

/-- `View.csv`: each record becomes its fields rendered and joined
with commas. -/
def csv (dump : List (List Field)) : List String :=
  dump.map (fun record => String.intercalate "," (record.map csvField))

end View

/-! ## Shutdown — `NDB.close`, main.py lines 261-277

`close()` holds the global lock, unregisters the atexit hook, and —
when `self.schema` is truthy — enqueues a `ShutdownException` sentinel,
closes and joins every source thread, joins the dispatch thread, and
commits and closes the store.  It never assigns `self.schema` or
`self._src_threads`, which is exactly what the second-call behaviour
hinges on; we record the externally visible operations as a trace. -/

inductive CloseOp
  | unregisterAtexit
  | enqueueShutdown
  | channelClose (t : Target)
  | threadJoin (t : Target)
  | dbmJoin
  | schemaCommit
  | schemaClose
deriving DecidableEq, Repr

/-- The fields of the `NDB` object that `close()` reads or writes. -/
structure NDBState where
  schema : Bool
  srcThreads : List Target
  atexitRegistered : Bool
deriving DecidableEq, Repr

namespace NDB

/-- `NDB.close` (main.py lines 261-277): the successor state and the
ordered list of operations performed.  Faithful to the source, the
schema flag and the source-thread list are left untouched. -/
def close (s : NDBState) : NDBState × List CloseOp :=
  let s1 : NDBState := ⟨s.schema, s.srcThreads, false⟩
  if s.schema then
    (s1, [CloseOp.unregisterAtexit, CloseOp.enqueueShutdown]
         ++ s.srcThreads.flatMap
              (fun t => [CloseOp.channelClose t, CloseOp.threadJoin t])
         ++ [CloseOp.dbmJoin, CloseOp.schemaCommit, CloseOp.schemaClose])
  else
    (s1, [CloseOp.unregisterAtexit])

end NDB

/-! ## Initialization — `NDB.__initdb__`, main.py lines 279-348

Under the global lock the main (`__dbm__`) thread runs, in program
order: the seed loop (lines 322-327, one `evq.put` per target per
entity type), then the spawn loop (lines 330-347, one source thread per
target), then the readiness sentinel (line 348).  A source thread may
enqueue incremental batches only once spawned.  We model the system as
a small-step relation over the main thread's remaining operations, the
set of started targets, and the trace of operations so far. -/

inductive SeedKind
  | links
  | addrs
  | neighbours
  | routes
deriving DecidableEq, Repr

/-- Observable operations: the main thread's enqueues and spawns, plus
incremental enqueues performed by started source threads. -/
inductive InitOp
  | seedEnqueue (t : Target) (k : SeedKind)
  | spawn (t : Target)
  | readyEnqueue
  | incEnqueue (t : Target)
deriving DecidableEq, Repr

/-- The four seed dumps of main.py lines 323-327, in source order. -/
def seedOps (ts : List Target) : List InitOp :=
  ts.flatMap (fun t =>
    [InitOp.seedEnqueue t .links, InitOp.seedEnqueue t .addrs,
     InitOp.seedEnqueue t .neighbours, InitOp.seedEnqueue t .routes])

/-- The spawn loop (main.py lines 330-347) followed by the readiness
sentinel (line 348). -/
def tailOps (ts : List Target) : List InitOp :=
  ts.map InitOp.spawn ++ [InitOp.readyEnqueue]

/-- The main thread's whole `__initdb__` enqueue/spawn sequence: all
seed dumps, then all thread spawns, then the readiness sentinel. -/
def initdbOps (ts : List Target) : List InitOp :=
  seedOps ts ++ tailOps ts

/-- Scheduler state: main thread program remainder, started source
threads, and the global operation trace. -/
structure Sys where
  pending : List InitOp
  started : List Target
  trace : List InitOp
deriving DecidableEq, Repr

/-- Effect of a main-thread operation on the started-thread set. -/
def spawnUpdate : InitOp → List Target → List Target
  | .spawn t, ts => t :: ts
  | _, ts => ts

/-- Interleaving semantics: either the main thread executes its next
`__initdb__` operation, or an already-started source thread enqueues an
incremental batch (main.py line 338). -/
inductive SysStep : Sys → Sys → Prop
  | main (op : InitOp) (rest : List InitOp) (started : List Target)
      (trace : List InitOp) :
      SysStep ⟨op :: rest, started, trace⟩
        ⟨rest, spawnUpdate op started, trace ++ [op]⟩
  | inc (pending : List InitOp) (started : List Target)
      (trace : List InitOp) (t : Target) (h : t ∈ started) :
      SysStep ⟨pending, started, trace⟩
        ⟨pending, started, trace ++ [InitOp.incEnqueue t]⟩

/-- States reachable from the start of `__initdb__` with target set
`ts` and no source thread running. -/
inductive SysReaches (ts : List Target) : Sys → Prop
  | init : SysReaches ts ⟨initdbOps ts, [], []⟩
  | step {s s' : Sys} : SysReaches ts s → SysStep s s' → SysReaches ts s'

/-- Recognizer for seed-dump enqueues. -/
def isSeed : InitOp → Bool
  | .seedEnqueue _ _ => true
  | _ => false

/-- Recognizer for incremental enqueues. -/
def isInc : InitOp → Bool
  | .incEnqueue _ => true
  | _ => false

/-- Invariant of the `__initdb__` interleaving: the main thread's
remaining program is a suffix of `initdbOps`; once any source thread
has started, or any incremental batch has been enqueued, no seed
enqueue remains pending; and in the trace every seed enqueue precedes
every incremental enqueue. -/
structure SysInv (ts : List Target) (s : Sys) : Prop where
  suffix : ∃ n, s.pending = (initdbOps ts).drop n
  started_noseed : s.started ≠ [] → ∀ x ∈ s.pending, isSeed x = false
  inc_noseed : (∃ u, InitOp.incEnqueue u ∈ s.trace) →
    ∀ x ∈ s.pending, isSeed x = false
  order : ∀ (i j : Nat) (t : Target) (k : SeedKind) (u : Target),
    s.trace[i]? = some (InitOp.seedEnqueue t k) →
    s.trace[j]? = some (InitOp.incEnqueue u) → i < j

/-- State for the C2 witness: one target, all four seed dumps enqueued,
the source thread spawned, and one incremental batch enqueued after it,
with the readiness sentinel still pending. -/
def c2State : Sys :=
  ⟨[InitOp.readyEnqueue], ["localhost"],
   [InitOp.seedEnqueue "localhost" .links,
    InitOp.seedEnqueue "localhost" .addrs,
    InitOp.seedEnqueue "localhost" .neighbours,
    InitOp.seedEnqueue "localhost" .routes,
    InitOp.spawn "localhost",
    InitOp.incEnqueue "localhost"]⟩

/-! ## Handle construction — `View.__getitem__`, main.py lines 102-133

Each call constructs a fresh entity object (`ret = self.iclass(...)`),
adds its weak reference to `self.ndb._rtnl_objects`, and for every
`(event, fname)` pair of the object's `event_map` appends
`partial(wr_handler, wr, fname)` to `ndb._event_map[event]` via
`register_handler` (lines 253-256).  Object identity is modelled by a
fresh allocation counter; a registered callable is identified by the
pair (referent identity, method name). -/

/-- A registered weak-bound callable: referent id and method name. -/
abbrev WeakHandler := Nat × String

/-- The NDB pieces `View.__getitem__` touches. -/
structure ViewState where
  nextId : Nat
  rtnlObjects : List Nat
  eventMap : List (Nat × List WeakHandler)
deriving DecidableEq, Repr

namespace NDB

/-- `NDB.register_handler` (main.py lines 253-256): create the entry if
missing, then append. -/
def register_handler (em : List (Nat × List WeakHandler)) (event : Nat)
    (h : WeakHandler) : List (Nat × List WeakHandler) :=
  match em with
  | [] => [(event, [h])]
  | (k, hs) :: rest =>
      if k = event then (k, hs ++ [h]) :: rest
      else (k, hs) :: register_handler rest event h

/-- Handlers registered for an event class. -/
def handlersFor (em : List (Nat × List WeakHandler)) (event : Nat) :
    List WeakHandler :=
  match em with
  | [] => []
  | (k, hs) :: rest => if k = event then hs else handlersFor rest event

/-- Total number of registered handlers across all event classes. -/
def totalRegs (em : List (Nat × List WeakHandler)) : Nat :=
  (em.map (fun kv => kv.2.length)).sum

end NDB

namespace View

/-- `View.__getitem__` (main.py lines 102-133): returns the identity of
the freshly constructed object together with the updated NDB state.
`emap` is the entity class's `event_map` as an ordered `(event, fname)`
list. -/
def getitem (emap : List (Nat × String)) (s : ViewState) :
    Nat × ViewState :=
  let h := s.nextId
  let em := emap.foldl
    (fun em ef => NDB.register_handler em ef.1 (h, ef.2)) s.eventMap
  (h, ⟨h + 1, s.rtnlObjects ++ [h], em⟩)

end View

/-! ## Bulk query — `View.dump`, main.py lines 150-180

The generator body first processes the `match` mapping: each key is
replaced by `cls.name2nla(key)` when that translation is a declared
column, and a key that is then still not a column raises `KeyError`.
Only after the whole mapping is processed does the body issue any
statement against the store (`self.ndb.execute`).  We record the
statements issued and the `KeyError`, if any. -/

/-- Condition building of main.py lines 155-165: `.ok` returns the
`rs.f_<key> = ?` condition fragments and the bound values, `.error`
carries the `KeyError` message. -/
def buildConditions (keys : List String) (name2nla : String → String) :
    List (String × String) → Except String (List String × List String)
  | [] => .ok ([], [])
  | (key, value) :: rest =>
      let key' := if name2nla key ∈ keys then name2nla key else key
      if key' ∈ keys then
        match buildConditions keys name2nla rest with
        | .ok (conds, vals) =>
            .ok (("rs.f_" ++ key' ++ " = ?") :: conds, value :: vals)
        | .error e => .error e
      else
        .error ("key " ++ key' ++ " not found")

namespace View

/-- `View.dump`: the list of SQL statements executed through
`self.ndb.execute`, paired with the `KeyError` message when one is
raised.  A raised `KeyError` happens during `match` processing, before
the first statement, so the statement list is then empty.  (In Python
the body is a generator and runs on the thread that iterates it — the
calling thread.) -/
def dump (keys : List String) (name2nla : String → String)
    (dumpSql : Option String) (dumpPre dumpPost : List String)
    (table : String) (matchSpec : Option (List (String × String))) :
    List String × Option String :=
  let spec : Except String String :=
    match matchSpec with
    | some m =>
        match buildConditions keys name2nla m with
        | .ok (conds, _) => .ok (" WHERE " ++ String.intercalate " AND " conds)
        | .error e => .error e
    | none => .ok ""
  match spec with
  | .error e => ([], some e)
  | .ok spec =>
      match dumpSql with
      | some sql => (dumpPre ++ [sql ++ spec] ++ dumpPost, none)
      | none => (["SELECT * FROM " ++ table ++ " AS rs " ++ spec], none)

end View

/-! ## nftables registers — `NFTReg`, expr.py lines 10-40 -/

/-- `NFTReg`: a register carrying its number. -/
structure NFTReg where
  num : Int
deriving DecidableEq, Repr

namespace NFTReg

/-- `NFTReg.to_netlink` (expr.py lines 26-33). -/
def to_netlink (reg : NFTReg) : String :=
  if reg.num = 0 then "NFT_REG_VERDICT"
  else if reg.num < 8 then "NFT_REG_" ++ toString reg.num
  else "NFT_REG32_" ++ toString reg.num

/-- Python `str.split(sep)` on the character list of a string:
maximal split, adjacent separators yield empty chunks. -/
def splitChars (sep : Char) : List Char → List (List Char)
  | [] => [[]]
  | c :: rest =>
      match splitChars sep rest with
      | [] => [[c]]
      | g :: gs => if c = sep then [] :: g :: gs else (c :: g) :: gs

/-- Python `str.lower` on one ASCII character. -/
def charLower (c : Char) : Char :=
  if 65 ≤ c.toNat ∧ c.toNat ≤ 90 then Char.ofNat (c.toNat + 32) else c

/-- Decimal digit accumulation for `parseInt`. -/
def digitsVal : List Char → Nat → Option Nat
  | [], acc => some acc
  | c :: cs, acc =>
      if 48 ≤ c.toNat ∧ c.toNat ≤ 57 then
        digitsVal cs (acc * 10 + (c.toNat - 48))
      else none

/-- Python `int(s)` on an optionally-signed decimal string; `none`
models the `ValueError` raise. -/
def parseInt : List Char → Option Int
  | [] => none
  | '-' :: rest =>
      if rest = [] then none
      else (digitsVal rest 0).map (fun n => -(n : Int))
  | l => (digitsVal l 0).map (fun n => (n : Int))

/-- `NFTReg.from_netlink` (expr.py lines 15-24):
`int(nlval.split('_')[-1].lower())`, plus 8 when the name carries the
`NFT_REG32_` prefix string. -/
def from_netlink (nlval : String) : Option NFTReg :=
  if nlval = "NFT_REG_VERDICT" then some ⟨0⟩
  else
    match parseInt (((splitChars '_' nlval.data).getLastD []).map charLower)
    with
    | none => none
    | some n =>
        some ⟨if List.isPrefixOf ("NFT_REG32_".data) nlval.data then n + 8
              else n⟩

end NFTReg

/-! ## Shared helper facts -/

/-- A behaviour in which every registered handler returns normally. -/
def okBehavior : Behavior := fun _ _ _ => .ok

/-- Behaviour for the C4 witness: handler 1 raises a generic
exception, every other handler returns normally. -/
def c4Behavior : Behavior :=
  fun h _ _ => if h = 1 then .raised .other else .ok

/-- Behaviour for the C6 witness: handler 1 is a weak-bound handler
whose referent is gone, every other handler returns normally. -/
def c6Behavior : Behavior :=
  fun h _ _ => if h = 1 then wr_handler (none : Option Nat) (fun _ => .ok)
               else .ok

/-- Queue for the C3 witness: two targets, target `a` contributing two
batches with target `b` enqueued between them. -/
def c3Queue : List (Target × List Event) :=
  [("a", [⟨1, none⟩]), ("b", [⟨2, none⟩]), ("a", [⟨3, none⟩, ⟨4, none⟩])]

/-- Attribute-name translation for the C9 witness, in the shape of the
real `name2nla` (prepend the message prefix, upper-case the name). -/
def c9Name2nla : String → String :=
  fun s => if s = "ifname" then "IFLA_IFNAME" else "IFLA_UNKNOWN"

/-- Setting a class's handler list makes it the stored list. -/
theorem emGet_emSet (em : EventMap) (c : Nat) (v : List Handler) :
    emGet (emSet em c v) c = some v := by
  induction em with
  | nil => simp [emSet, emGet]
  | cons kv rest ih =>
      by_cases h : kv.1 = c
      · simp [emSet, emGet, h]
      · simp [emSet, emGet, h, ih]

end Pyroute2

namespace Pyroute2

/-- Claim C8: `View.csv` joins fields with commas, rendering integers
as bare decimals, `None` as the empty string, and any other field
single-quoted; the row `('localhost', 1, 'lo', None, 65609)` renders
exactly as `'localhost',1,'lo',,65609`. -/
theorem csv_renders_row :
    (∀ n : Int, csvField (.int n) = toString n) ∧
    csvField .null = "" ∧
    (∀ s : String, csvField (.str s) = "'" ++ s ++ "'") ∧
    View.csv [[.str "localhost", .int 1, .str "lo", .null, .int 65609]]
      = ["'localhost',1,'lo',,65609"] := by
  refine ⟨fun n => rfl, rfl, fun s => rfl, ?_⟩
  decide

/-- Claim C10, counterexample: the register numbered 8 is rendered by
`to_netlink` as the netlink name with the raw number, which
`from_netlink` parses back — adding the `NFT_REG32_` base of 8 — to the
register numbered 16, not 8. -/
theorem nftreg_roundtrip_fails_at_eight :
    NFTReg.from_netlink (NFTReg.to_netlink ⟨8⟩) = some ⟨16⟩ ∧
    (⟨16⟩ : NFTReg) ≠ ⟨8⟩ := by
  constructor
  · decide
  · decide

/-- Claim C10, amended: for every register with number `0 ≤ n < 8`,
converting to the netlink name and parsing it back yields a register
with the same number. -/
theorem nftreg_roundtrip_below_eight (n : Int) (h0 : 0 ≤ n) (h8 : n < 8) :
    NFTReg.from_netlink (NFTReg.to_netlink ⟨n⟩) = some ⟨n⟩ := by
  interval_cases n <;> decide

/-- Witness for the amended C10 theorem at `n = 3`. -/
theorem nftreg_roundtrip_below_eight_witness :
    (0 : Int) ≤ 3 ∧ (3 : Int) < 8 ∧
    NFTReg.from_netlink (NFTReg.to_netlink ⟨3⟩) = some ⟨3⟩ :=
  ⟨by decide, by decide, nftreg_roundtrip_below_eight 3 (by decide) (by decide)⟩

/-- Claim C1: after a completed first `close()` on an initialized NDB
(schema set, one source thread recorded), the second `close()` performs
channel-close, thread-join and store operations again — `close()` never
clears `self.schema` or `self._src_threads`, so the guard `if
self.schema:` is taken on every call. -/
theorem close_second_call_not_noop :
    CloseOp.channelClose "localhost"
        ∈ (NDB.close (NDB.close ⟨true, ["localhost"], true⟩).1).2 ∧
    CloseOp.threadJoin "localhost"
        ∈ (NDB.close (NDB.close ⟨true, ["localhost"], true⟩).1).2 ∧
    CloseOp.schemaCommit
        ∈ (NDB.close (NDB.close ⟨true, ["localhost"], true⟩).1).2 ∧
    CloseOp.schemaClose
        ∈ (NDB.close (NDB.close ⟨true, ["localhost"], true⟩).1).2 ∧
    (NDB.close (NDB.close ⟨true, ["localhost"], true⟩).1).1.schema = true := by
  decide


/-- A handler pass terminates the loop only when some invocation
raises the shutdown signal. -/
theorem runHandlers_no_shutdown (invoke : Handler → HResult) :
    ∀ (hs live : List Handler),
      (∀ x ∈ hs, invoke x ≠ .raised .shutdown) →
      (runHandlers invoke hs live).terminated = false := by
  intro hs
  induction hs with
  | nil => intro live _; rfl
  | cons a rest ih =>
      intro live h
      have ha := h a (List.mem_cons_self a rest)
      have hrest : ∀ x ∈ rest, invoke x ≠ .raised .shutdown :=
        fun x hx => h x (List.mem_cons_of_mem a hx)
      cases hv : invoke a with
      | ok => simp [runHandlers, hv, ih live hrest]
      | raised e =>
          cases e with
          | invalidate =>
              by_cases hmem : a ∈ live
              · simp [runHandlers, hv, hmem, ih _ hrest]
              · simp [runHandlers, hv, hmem, ih _ hrest]
          | shutdown => exact absurd hv ha
          | other => simp [runHandlers, hv, ih live hrest]

/-- Dispatching one event terminates the loop only when a handler
raises the shutdown signal or the event itself is shutdown-shaped. -/
theorem processEvent_no_shutdown (β : Behavior) (em : EventMap)
    (t : Target) (ev : Event)
    (hβ : ∀ h, β h t ev ≠ .raised .shutdown)
    (hev : ev.exn ≠ some .shutdown) :
    (processEvent β em t ev).terminated = false := by
  unfold processEvent
  cases hg : emGet em ev.cls with
  | some hs =>
      simp [runHandlers_no_shutdown (fun h => β h t ev) hs hs
        (fun x _ => hβ x)]
  | none =>
      cases hx : ev.exn with
      | none => simp
      | some e => cases e <;> simp_all

/-- Under no shutdown, a batch is applied whole, in batch order. -/
theorem runBatch_no_shutdown (β : Behavior) (t : Target)
    (hβ : ∀ h t' ev, β h t' ev ≠ .raised .shutdown) :
    ∀ (evs : List Event) (em : EventMap),
      (∀ ev ∈ evs, ev.exn ≠ some .shutdown) →
      (runBatch β em t evs).applied = evs.map (fun ev => (t, ev)) ∧
      (runBatch β em t evs).terminated = false := by
  intro evs
  induction evs with
  | nil => intro em _; exact ⟨rfl, rfl⟩
  | cons ev rest ih =>
      intro em hevs
      have hpe := processEvent_no_shutdown β em t ev (fun h => hβ h t ev)
        (hevs ev (List.mem_cons_self ev rest))
      have ihr := ih ((processEvent β em t ev).em)
        (fun x hx => hevs x (List.mem_cons_of_mem ev hx))
      simp [runBatch, hpe, ihr.1, ihr.2]

/-- Under no shutdown, the loop applies the queue's batches whole, in
FIFO order, tagging each event with its batch's target. -/
theorem runLoop_no_shutdown (β : Behavior)
    (hβ : ∀ h t ev, β h t ev ≠ .raised .shutdown) :
    ∀ (queue : List (Target × List Event)) (em : EventMap),
      (∀ p ∈ queue, ∀ ev ∈ p.2, ev.exn ≠ some .shutdown) →
      (runLoop β em queue).applied
        = queue.flatMap (fun p => p.2.map (fun ev => (p.1, ev))) ∧
      (runLoop β em queue).terminated = false := by
  intro queue
  induction queue with
  | nil => intro em _; exact ⟨rfl, rfl⟩
  | cons p rest ih =>
      intro em hq
      obtain ⟨t, evs⟩ := p
      have hb := runBatch_no_shutdown β t hβ evs em
        (fun ev hev => hq (t, evs) (List.mem_cons_self _ _) ev hev)
      have ihr := ih ((runBatch β em t evs).em)
        (fun x hx ev hev => hq x (List.mem_cons_of_mem _ hx) ev hev)
      simp [runLoop, hb.1, hb.2, ihr.1, ihr.2]

/-- Projecting one tagged batch onto one target. -/
theorem filter_tag_map (t tgt : Target) (evs : List Event) :
    (((evs.map (fun ev => (t, ev))).filter
        (fun p => p.1 == tgt)).map Prod.snd)
      = if t == tgt then evs else [] := by
  induction evs with
  | nil => cases h : (t == tgt) <;> simp [h]
  | cons ev rest ih =>
      cases h : (t == tgt) <;> simp_all [List.filter_cons, h]

/-- Projecting the whole tagged flattening onto one target yields the
concatenation of that target's batches in queue order. -/
theorem filter_tag_flatMap (qs : List (Target × List Event)) (tgt : Target) :
    ((qs.flatMap (fun p => p.2.map (fun ev => (p.1, ev)))).filter
        (fun p => p.1 == tgt)).map Prod.snd
      = (qs.filter (fun p => p.1 == tgt)).flatMap (fun p => p.2) := by
  induction qs with
  | nil => rfl
  | cons p rest ih =>
      obtain ⟨t, evs⟩ := p
      cases h : (t == tgt) <;>
        simp [List.flatMap_cons, List.filter_append, List.map_append,
          List.filter_cons, filter_tag_map, h, ih]

/-- Claim C3: in the absence of a shutdown, dispatch order equals
enqueue order (each batch applied whole, batches in FIFO order), and
per target the dispatched event sequence equals the concatenation of
that target's batches in enqueue order. -/
theorem per_target_order_preserved (β : Behavior) (em : EventMap)
    (queue : List (Target × List Event)) (tgt : Target)
    (hβ : ∀ h t ev, β h t ev ≠ .raised .shutdown)
    (hq : ∀ p ∈ queue, ∀ ev ∈ p.2, ev.exn ≠ some .shutdown) :
    (runLoop β em queue).applied
      = queue.flatMap (fun p => p.2.map (fun ev => (p.1, ev))) ∧
    ((runLoop β em queue).applied.filter (fun p => p.1 == tgt)).map Prod.snd
      = (queue.filter (fun p => p.1 == tgt)).flatMap (fun p => p.2) := by
  have h1 := runLoop_no_shutdown β hβ queue em hq
  exact ⟨h1.1, by rw [h1.1]; exact filter_tag_flatMap queue tgt⟩


/-- Witness for the C3 theorem on `c3Queue`: the dispatch trace and its
projection onto target `a`. -/
theorem per_target_order_preserved_witness :
    (runLoop okBehavior [] c3Queue).applied
      = [("a", ⟨1, none⟩), ("b", ⟨2, none⟩),
         ("a", ⟨3, none⟩), ("a", ⟨4, none⟩)] ∧
    ((runLoop okBehavior [] c3Queue).applied.filter
        (fun p => p.1 == "a")).map Prod.snd
      = [⟨1, none⟩, ⟨3, none⟩, ⟨4, none⟩] := by
  have h := per_target_order_preserved okBehavior [] c3Queue "a"
    (fun h t ev hc => nomatch hc) (by decide)
  exact ⟨h.1.trans (by decide), h.2.trans (by decide)⟩

/-- Claim C5, counterexample: an exception-shaped event (`cls 7`,
generic exception) with no registered handler is re-raised by the
default handler, but the raise is caught by the loop's catch-all
clause: it is logged as a load error and the Dispatch Loop does NOT
terminate — the following event (`cls 8`) is still dispatched. -/
theorem unregistered_exception_not_fatal :
    (runBatch okBehavior [] "localhost"
        [⟨7, some .other⟩, ⟨8, none⟩]).terminated = false ∧
    (runBatch okBehavior [] "localhost" [⟨7, some .other⟩, ⟨8, none⟩]).applied
      = [("localhost", ⟨7, some .other⟩), ("localhost", ⟨8, none⟩)] ∧
    (runBatch okBehavior [] "localhost" [⟨7, some .other⟩, ⟨8, none⟩]).log
      = [.loadError, .unsupported 8] := by
  decide

/-- Claim C5, amended: for an event whose class has no registered
handler, the default handler raises the event when it is itself an
exception; the raise is caught by the loop's `except` clauses, so it
terminates the loop only when the event is the shutdown signal.  A
generic exception event is logged as a load error and the loop
continues; an invalidation-signal event merely triggers removal of the
temporary default-handler entry; a non-exception event is logged as
unsupported.  In every non-shutdown case the event map is left
untouched and no registered handler runs. -/
theorem default_handler_dispatch (β : Behavior) (em : EventMap)
    (t : Target) (ev : Event) (hnone : emGet em ev.cls = none) :
    (ev.exn = some .shutdown →
      processEvent β em t ev = ⟨em, [.default], [], true⟩) ∧
    (ev.exn = some .other →
      processEvent β em t ev = ⟨em, [.default], [.loadError], false⟩) ∧
    (ev.exn = some .invalidate →
      processEvent β em t ev = ⟨em, [.default], [], false⟩) ∧
    (ev.exn = none →
      processEvent β em t ev = ⟨em, [.default], [.unsupported ev.cls], false⟩) := by
  refine ⟨?_, ?_, ?_, ?_⟩ <;> intro h <;> simp [processEvent, hnone, h]

/-- Witness for the amended C5 theorem: a generic-exception event of
unregistered class 7 is logged and dropped without termination. -/
theorem default_handler_dispatch_witness :
    processEvent okBehavior [] "localhost" ⟨7, some .other⟩
      = ⟨[], [.default], [.loadError], false⟩ :=
  (default_handler_dispatch okBehavior [] "localhost" ⟨7, some .other⟩
    rfl).2.1 rfl

/-- Claim C4: with two handlers registered for one class and the first
raising a generic (non-control) exception, the second handler is still
invoked, the fault is logged, both handlers stay registered, the loop
is not terminated, and processing continues with the next event. -/
theorem handler_fault_isolated (β : Behavior) (em : EventMap) (c : Nat)
    (h1 h2 : Handler) (t : Target) (ev : Event) (rest : List Event)
    (hem : emGet em c = some [h1, h2]) (hcls : ev.cls = c)
    (hβ1 : β h1 t ev = .raised .other) (hβ2 : β h2 t ev = .ok) :
    (processEvent β em t ev).invoked = [.reg h1, .reg h2] ∧
    (processEvent β em t ev).log = [.loadError] ∧
    emGet (processEvent β em t ev).em c = some [h1, h2] ∧
    (processEvent β em t ev).terminated = false ∧
    (runBatch β em t (ev :: rest)).applied
      = (t, ev) :: (runBatch β (processEvent β em t ev).em t rest).applied := by
  have hpe : processEvent β em t ev
      = ⟨emSet em c [h1, h2], [.reg h1, .reg h2], [.loadError], false⟩ := by
    simp [processEvent, hcls, hem, runHandlers, hβ1, hβ2]
  refine ⟨?_, ?_, ?_, ?_, ?_⟩ <;> rw [hpe] <;>
    simp [emGet_emSet, runBatch, hpe]

/-- Witness for the C4 theorem: a concrete event map with handlers 1
and 2 for class 5, where handler 1 faults and handler 2 succeeds. -/
theorem handler_fault_isolated_witness :
    (processEvent c4Behavior [(5, [1, 2])] "localhost" ⟨5, none⟩).invoked
        = [.reg 1, .reg 2] ∧
    (processEvent c4Behavior [(5, [1, 2])] "localhost" ⟨5, none⟩).log
        = [.loadError] ∧
    emGet (processEvent c4Behavior [(5, [1, 2])] "localhost" ⟨5, none⟩).em 5
        = some [1, 2] ∧
    (processEvent c4Behavior [(5, [1, 2])] "localhost" ⟨5, none⟩).terminated
        = false ∧
    (runBatch c4Behavior [(5, [1, 2])] "localhost" [⟨5, none⟩]).applied
      = ("localhost", (⟨5, none⟩ : Event)) ::
        (runBatch c4Behavior
          (processEvent c4Behavior [(5, [1, 2])] "localhost" ⟨5, none⟩).em
          "localhost" []).applied :=
  handler_fault_isolated c4Behavior [(5, [1, 2])] 5 1 2 "localhost"
    ⟨5, none⟩ [] rfl rfl rfl rfl

/-- `register_handler` grows the total registration count by one. -/
theorem totalRegs_register (em : List (Nat × List WeakHandler)) (e : Nat)
    (h : WeakHandler) :
    NDB.totalRegs (NDB.register_handler em e h) = NDB.totalRegs em + 1 := by
  induction em with
  | nil => simp [NDB.register_handler, NDB.totalRegs]
  | cons kv rest ih =>
      by_cases hk : kv.1 = e
      · simp [NDB.register_handler, hk, NDB.totalRegs]
        omega
      · simp [NDB.register_handler, hk, NDB.totalRegs] at ih ⊢
        omega

/-- Registering under class `e'` appends to that class's list and
leaves every other class's list unchanged. -/
theorem handlersFor_register (e e' : Nat) (h : WeakHandler) :
    ∀ em : List (Nat × List WeakHandler),
      NDB.handlersFor (NDB.register_handler em e' h) e
        = if e = e' then NDB.handlersFor em e ++ [h]
          else NDB.handlersFor em e := by
  intro em
  induction em with
  | nil =>
      by_cases he : e = e' <;>
        simp [NDB.register_handler, NDB.handlersFor, he, Ne.symm]
  | cons kv rest ih =>
      obtain ⟨k0, hs0⟩ := kv
      by_cases hee : e = e'
      · subst hee
        by_cases hk : k0 = e
        · simp [NDB.register_handler, NDB.handlersFor, hk]
        · simp [NDB.register_handler, NDB.handlersFor, hk, ih]
      · by_cases hk : k0 = e'
        · have he : ¬k0 = e := fun hc => hee (hc ▸ hk ▸ rfl)
          have hee2 : ¬e' = e := fun hc => hee hc.symm
          simp [NDB.register_handler, NDB.handlersFor, hk, he, hee, hee2]
        · by_cases he : k0 = e <;>
            simp [NDB.register_handler, NDB.handlersFor, hk, he, hee, ih]

/-- The handler just registered is found under its event class. -/
theorem handlersFor_register_self (em : List (Nat × List WeakHandler))
    (e : Nat) (h : WeakHandler) :
    h ∈ NDB.handlersFor (NDB.register_handler em e h) e := by
  simp [handlersFor_register e e h em]

/-- Registering never removes an existing registration. -/
theorem handlersFor_register_mono (e e' : Nat) (x h : WeakHandler) :
    ∀ em : List (Nat × List WeakHandler),
      x ∈ NDB.handlersFor em e →
      x ∈ NDB.handlersFor (NDB.register_handler em e' h) e := by
  intro em hx
  rw [handlersFor_register e e' h em]
  by_cases hee : e = e'
  · subst hee
    simp [hx]
  · simp [hee, hx]

/-- The registration fold of `View.__getitem__` adds one registration
per `event_map` entry. -/
theorem totalRegs_fold (hid : Nat) :
    ∀ (emap : List (Nat × String)) (em0 : List (Nat × List WeakHandler)),
      NDB.totalRegs (emap.foldl
        (fun em ef => NDB.register_handler em ef.1 (hid, ef.2)) em0)
        = NDB.totalRegs em0 + emap.length := by
  intro emap
  induction emap with
  | nil => intro em0; simp
  | cons ef rest ih =>
      intro em0
      simp [List.foldl_cons, ih, totalRegs_register]
      omega

/-- The registration fold preserves existing registrations. -/
theorem handlersFor_fold_mono (hid : Nat) :
    ∀ (emap : List (Nat × String)) (em0 : List (Nat × List WeakHandler))
      (e : Nat) (x : WeakHandler),
      x ∈ NDB.handlersFor em0 e →
      x ∈ NDB.handlersFor (emap.foldl
        (fun em ef => NDB.register_handler em ef.1 (hid, ef.2)) em0) e := by
  intro emap
  induction emap with
  | nil => intro em0 e x hx; simpa using hx
  | cons ef rest ih =>
      intro em0 e x hx
      exact ih _ e x (handlersFor_register_mono e ef.1 x (hid, ef.2) em0 hx)

/-- After the registration fold, every `event_map` entry has the new
referent's handler registered under its event class. -/
theorem handlersFor_fold_mem (hid : Nat) :
    ∀ (emap : List (Nat × String)) (em0 : List (Nat × List WeakHandler))
      (ef : Nat × String), ef ∈ emap →
      (hid, ef.2) ∈ NDB.handlersFor (emap.foldl
        (fun em ef => NDB.register_handler em ef.1 (hid, ef.2)) em0) ef.1 := by
  intro emap
  induction emap with
  | nil => intro em0 ef hm; simp at hm
  | cons ef0 rest ih =>
      intro em0 ef hm
      rcases List.mem_cons.mp hm with heq | hrest
      · subst heq
        simp only [List.foldl_cons]
        exact handlersFor_fold_mono hid rest _ ef.1 (hid, ef.2)
          (handlersFor_register_self em0 ef.1 (hid, ef.2))
      · simp only [List.foldl_cons]
        exact ih _ ef hrest

/-- Claim C7: two `View.__getitem__` calls with the same key construct
two distinct Handles (no interning), both tracked in the weak-reference
set, and leave two independent registrations — one per call — for every
entry of the entity type's event map. -/
theorem getitem_fresh_handles (emap : List (Nat × String)) (s : ViewState) :
    (View.getitem emap s).1 ≠ (View.getitem emap (View.getitem emap s).2).1 ∧
    (View.getitem emap s).1
      ∈ (View.getitem emap (View.getitem emap s).2).2.rtnlObjects ∧
    (View.getitem emap (View.getitem emap s).2).1
      ∈ (View.getitem emap (View.getitem emap s).2).2.rtnlObjects ∧
    NDB.totalRegs (View.getitem emap (View.getitem emap s).2).2.eventMap
      = NDB.totalRegs s.eventMap + 2 * emap.length ∧
    ∀ ef ∈ emap,
      ((View.getitem emap s).1, ef.2)
        ∈ NDB.handlersFor
            (View.getitem emap (View.getitem emap s).2).2.eventMap ef.1 ∧
      ((View.getitem emap (View.getitem emap s).2).1, ef.2)
        ∈ NDB.handlersFor
            (View.getitem emap (View.getitem emap s).2).2.eventMap ef.1 := by
  refine ⟨?_, ?_, ?_, ?_, ?_⟩
  · simp [View.getitem]
  · simp [View.getitem]
  · simp [View.getitem]
  · simp only [View.getitem, totalRegs_fold]
    omega
  · intro ef hm
    constructor
    · simp only [View.getitem]
      exact handlersFor_fold_mono (s.nextId + 1) emap _ ef.1 (s.nextId, ef.2)
        (handlersFor_fold_mem s.nextId emap s.eventMap ef hm)
    · simp only [View.getitem]
      exact handlersFor_fold_mem (s.nextId + 1) emap _ ef hm

/-- Witness for the C7 theorem: the `Interface` event map (one entry,
`load_rtnlmsg`) on an empty NDB state. -/
theorem getitem_fresh_handles_witness :
    (View.getitem [(3, "load_rtnlmsg")] ⟨0, [], []⟩).1
      ≠ (View.getitem [(3, "load_rtnlmsg")]
          (View.getitem [(3, "load_rtnlmsg")] ⟨0, [], []⟩).2).1 ∧
    ((View.getitem [(3, "load_rtnlmsg")] ⟨0, [], []⟩).1, "load_rtnlmsg")
      ∈ NDB.handlersFor
          (View.getitem [(3, "load_rtnlmsg")]
            (View.getitem [(3, "load_rtnlmsg")] ⟨0, [], []⟩).2).2.eventMap 3 ∧
    ((View.getitem [(3, "load_rtnlmsg")]
        (View.getitem [(3, "load_rtnlmsg")] ⟨0, [], []⟩).2).1, "load_rtnlmsg")
      ∈ NDB.handlersFor
          (View.getitem [(3, "load_rtnlmsg")]
            (View.getitem [(3, "load_rtnlmsg")] ⟨0, [], []⟩).2).2.eventMap 3 := by
  obtain ⟨h1, _, _, _, h5⟩ :=
    getitem_fresh_handles [(3, "load_rtnlmsg")] ⟨0, [], []⟩
  obtain ⟨ha, hb⟩ := h5 (3, "load_rtnlmsg") (by simp)
  exact ⟨h1, ha, hb⟩

/-- `buildConditions` fails whenever some match key is, after the
conditional attribute-name translation, not a declared column. -/
theorem buildConditions_error (keys : List String)
    (name2nla : String → String) :
    ∀ (m : List (String × String)) (k v : String), (k, v) ∈ m →
      (if name2nla k ∈ keys then name2nla k else k) ∉ keys →
      ∃ e, buildConditions keys name2nla m = .error e := by
  intro m
  induction m with
  | nil => intro k v hm _; simp at hm
  | cons kv rest ih =>
      intro k v hm hbad
      obtain ⟨k0, v0⟩ := kv
      by_cases h0 : (if name2nla k0 ∈ keys then name2nla k0 else k0) ∈ keys
      · rcases List.mem_cons.mp hm with heq | hrest
        · rw [Prod.mk.injEq] at heq
          exact absurd (heq.1 ▸ h0) hbad
        · obtain ⟨e, he⟩ := ih k v hrest hbad
          exact ⟨e, by simp [buildConditions, h0, he]⟩
      · refine ⟨"key " ++ (if name2nla k0 ∈ keys then name2nla k0 else k0)
          ++ " not found", ?_⟩
        simp [buildConditions, h0]

/-- Claim C9: when the match mapping holds a key that is, after the
attribute-name translation step, not among the table's declared
columns, `View.dump` raises `KeyError` and executes no statement
against the store. -/
theorem dump_bad_key_raises (keys : List String)
    (name2nla : String → String) (dumpSql : Option String)
    (dumpPre dumpPost : List String) (table : String)
    (m : List (String × String)) (k v : String) (hm : (k, v) ∈ m)
    (hbad : (if name2nla k ∈ keys then name2nla k else k) ∉ keys) :
    (View.dump keys name2nla dumpSql dumpPre dumpPost table (some m)).1
      = [] ∧
    (View.dump keys name2nla dumpSql dumpPre dumpPost table
      (some m)).2.isSome = true := by
  obtain ⟨e, he⟩ := buildConditions_error keys name2nla m k v hm hbad
  simp [View.dump, he]


/-- Witness for the C9 theorem: the `interfaces` columns with a match
holding one translatable key and one unknown key. -/
theorem dump_bad_key_raises_witness :
    (View.dump ["IFLA_IFNAME", "index", "target"] c9Name2nla none [] []
        "interfaces" (some [("ifname", "lo"), ("bogus", "1")])).1 = [] ∧
    (View.dump ["IFLA_IFNAME", "index", "target"] c9Name2nla none [] []
        "interfaces" (some [("ifname", "lo"), ("bogus", "1")])).2.isSome
      = true :=
  dump_bad_key_raises ["IFLA_IFNAME", "index", "target"] c9Name2nla none
    [] [] "interfaces" [("ifname", "lo"), ("bogus", "1")] "bogus" "1"
    (by decide) (by decide)

/-- Claim C6: the weak-bound handler reports the invalidation signal
when its referent is gone and re-raises the callee's own outcome
unchanged when the referent is alive; on the invalidation signal,
dispatch removes exactly that handler from the class's list at once,
invokes the remaining handlers, logs nothing, and does not terminate. -/
theorem weak_handler_invalidation :
    (∀ (call : Nat → HResult),
        wr_handler (none : Option Nat) call = .raised .invalidate) ∧
    (∀ (o : Nat) (call : Nat → HResult),
        wr_handler (some o) call = call o) ∧
    (∀ (β : Behavior) (em : EventMap) (c : Nat) (h1 h2 : Handler)
        (t : Target) (ev : Event) (call : Nat → HResult),
      emGet em c = some [h1, h2] → ev.cls = c →
      β h1 t ev = wr_handler (none : Option Nat) call →
      β h2 t ev = .ok → h1 ≠ h2 →
      emGet (processEvent β em t ev).em c = some [h2] ∧
      (processEvent β em t ev).invoked = [.reg h1, .reg h2] ∧
      (processEvent β em t ev).log = [] ∧
      (processEvent β em t ev).terminated = false) := by
  refine ⟨fun _ => rfl, fun _ _ => rfl, ?_⟩
  intro β em c h1 h2 t ev call hem hcls hβ1 hβ2 hne
  have hβ1' : β h1 t ev = .raised .invalidate := hβ1
  have hpe : processEvent β em t ev
      = ⟨emSet em c [h2], [.reg h1, .reg h2], [], false⟩ := by
    simp [processEvent, hcls, hem, runHandlers, hβ1', hβ2,
      List.erase_cons_head]
  rw [hpe]
  simp [emGet_emSet]

/-- Witness for the C6 theorem: referent-gone and referent-alive calls
of `wr_handler`, and removal of handler 1 (dead referent) from the
class-5 list while handler 2 still runs. -/
theorem weak_handler_invalidation_witness :
    wr_handler (none : Option Nat) (fun _ => .ok) = .raised .invalidate ∧
    wr_handler (some 4) (fun _ => .raised .other) = .raised .other ∧
    (emGet (processEvent c6Behavior [(5, [1, 2])] "localhost" ⟨5, none⟩).em 5
        = some [2] ∧
     (processEvent c6Behavior [(5, [1, 2])] "localhost" ⟨5, none⟩).invoked
        = [.reg 1, .reg 2] ∧
     (processEvent c6Behavior [(5, [1, 2])] "localhost" ⟨5, none⟩).log = [] ∧
     (processEvent c6Behavior [(5, [1, 2])] "localhost" ⟨5, none⟩).terminated
        = false) :=
  ⟨weak_handler_invalidation.1 (fun _ => .ok),
   weak_handler_invalidation.2.1 4 (fun _ => .raised .other),
   weak_handler_invalidation.2.2 c6Behavior [(5, [1, 2])] 5 1 2 "localhost"
     ⟨5, none⟩ (fun _ => .ok) rfl rfl rfl rfl (by decide)⟩

/-- Every element of the seed block is a seed enqueue. -/
theorem isSeed_of_mem_seedOps (ts : List Target) :
    ∀ op ∈ seedOps ts, isSeed op = true := by
  intro op hop
  rw [seedOps, List.mem_flatMap] at hop
  obtain ⟨t, _, hmem⟩ := hop
  simp only [List.mem_cons, List.not_mem_nil, or_false] at hmem
  rcases hmem with h | h | h | h <;> subst h <;> rfl

/-- The spawn/sentinel block holds neither seed nor incremental
enqueues. -/
theorem not_seed_inc_of_mem_tailOps (ts : List Target) :
    ∀ op ∈ tailOps ts, isSeed op = false ∧ isInc op = false := by
  intro op hop
  rw [tailOps] at hop
  rcases List.mem_append.mp hop with h | h
  · obtain ⟨t, _, ht⟩ := List.mem_map.mp h
    subst ht
    exact ⟨rfl, rfl⟩
  · have hr : op = InitOp.readyEnqueue := List.mem_singleton.mp h
    subst hr
    exact ⟨rfl, rfl⟩

/-- The main thread never enqueues an incremental batch. -/
theorem not_inc_of_mem_initdbOps (ts : List Target) :
    ∀ op ∈ initdbOps ts, isInc op = false := by
  intro op hop
  rw [initdbOps] at hop
  rcases List.mem_append.mp hop with h | h
  · have hs := isSeed_of_mem_seedOps ts op h
    cases op <;> simp_all [isSeed, isInc]
  · exact (not_seed_inc_of_mem_tailOps ts op h).2

/-- In any suffix of `initdbOps` whose head is not a seed enqueue, the
remainder holds no seed enqueue either: all seeds sit in the initial
block. -/
theorem drop_initdb_no_seed_after (ts : List Target) (n : Nat) (op : InitOp)
    (rest : List InitOp) (h : (initdbOps ts).drop n = op :: rest)
    (hop : isSeed op = false) : ∀ x ∈ rest, isSeed x = false := by
  intro x hx
  rw [initdbOps, List.drop_append_eq_append_drop] at h
  rcases hd : (seedOps ts).drop n with _ | ⟨y, ys⟩
  · rw [hd, List.nil_append] at h
    have hx2 : x ∈ (tailOps ts).drop (n - (seedOps ts).length) := by
      rw [h]
      exact List.mem_cons_of_mem op hx
    exact (not_seed_inc_of_mem_tailOps ts x (List.mem_of_mem_drop hx2)).1
  · rw [hd] at h
    have hy : y = op := by
      have hh := congrArg (fun l => l.head?) h
      simpa using hh
    have hymem : y ∈ (seedOps ts).drop n := by
      rw [hd]
      exact List.mem_cons_self y ys
    have hy_seed : isSeed y = true :=
      isSeed_of_mem_seedOps ts y (List.mem_of_mem_drop hymem)
    rw [hy] at hy_seed
    rw [hy_seed] at hop
    simp at hop

/-- An index holding a value lies below the length. -/
theorem getElem?_some_lt {α : Type} {l : List α} {i : Nat} {v : α}
    (h : l[i]? = some v) : i < l.length := by
  by_contra hge
  rw [List.getElem?_eq_none (Nat.le_of_not_lt hge)] at h
  exact Option.noConfusion h

/-- Indexing into `l ++ [x]` hits either `l` or the appended element. -/
theorem getElem?_concat_cases {α : Type} (l : List α) (x : α) (i : Nat)
    (v : α) (h : (l ++ [x])[i]? = some v) :
    l[i]? = some v ∨ (i = l.length ∧ v = x) := by
  by_cases hi : i < l.length
  · exact Or.inl (by rwa [List.getElem?_append_left hi] at h)
  · right
    rw [List.getElem?_append_right (Nat.le_of_not_lt hi)] at h
    rcases hm : i - l.length with _ | m
    · rw [hm] at h
      simp at h
      exact ⟨by omega, h.symm⟩
    · rw [hm] at h
      simp at h

/-- The invariant holds at the start of `__initdb__`. -/
theorem sysInv_init (ts : List Target) :
    SysInv ts ⟨initdbOps ts, [], []⟩ := by
  refine ⟨⟨0, rfl⟩, ?_, ?_, ?_⟩
  · intro hne
    exact absurd rfl hne
  · intro hex
    obtain ⟨u, hu⟩ := hex
    exact absurd hu (List.not_mem_nil _)
  · intro i j t k u hi hj
    simp at hi

/-- The invariant is preserved by every interleaving step. -/
theorem sysInv_step {ts : List Target} {s s' : Sys}
    (inv : SysInv ts s) (st : SysStep s s') : SysInv ts s' := by
  cases st with
  | main op rest started trace =>
      obtain ⟨n, hn⟩ := inv.suffix
      have hop_mem : op ∈ initdbOps ts := by
        refine List.mem_of_mem_drop (n := n) ?_
        rw [← hn]
        exact List.mem_cons_self op rest
      have hrest : rest = (initdbOps ts).drop (n + 1) := by
        have h1 := congrArg List.tail hn
        simpa [List.tail_drop] using h1
      have hnotinc : isInc op = false := not_inc_of_mem_initdbOps ts op hop_mem
      refine ⟨⟨n + 1, hrest⟩, ?_, ?_, ?_⟩
      · intro hne x hx
        by_cases hs0 : started = []
        · subst hs0
          cases op with
          | spawn t2 =>
              exact drop_initdb_no_seed_after ts n _ rest hn.symm rfl x hx
          | seedEnqueue t2 k2 => exact absurd rfl hne
          | readyEnqueue => exact absurd rfl hne
          | incEnqueue t2 => exact absurd rfl hne
        · exact inv.started_noseed hs0 x (List.mem_cons_of_mem op hx)
      · intro hexists x hx
        obtain ⟨u, hu⟩ := hexists
        rcases List.mem_append.mp hu with hold | hnew
        · exact inv.inc_noseed ⟨u, hold⟩ x (List.mem_cons_of_mem op hx)
        · have hop2 : InitOp.incEnqueue u = op := List.mem_singleton.mp hnew
          rw [← hop2] at hnotinc
          simp [isInc] at hnotinc
      · intro i j t k u hi hj
        rcases getElem?_concat_cases trace op j _ hj with hjold | ⟨hjlen, hjop⟩
        · rcases getElem?_concat_cases trace op i _ hi with hiold | ⟨hilen, hiop⟩
          · exact inv.order i j t k u hiold hjold
          · have hmem : InitOp.incEnqueue u ∈ trace := List.getElem?_mem hjold
            have hns := inv.inc_noseed ⟨u, hmem⟩ op (List.mem_cons_self op rest)
            rw [← hiop] at hns
            simp [isSeed] at hns
        · rcases getElem?_concat_cases trace op i _ hi with hiold | ⟨hilen, hiop⟩
          · have hilt : i < trace.length := getElem?_some_lt hiold
            omega
          · rw [← hjop] at hiop
            exact InitOp.noConfusion hiop
  | inc pending started trace t ht =>
      refine ⟨inv.suffix, inv.started_noseed, ?_, ?_⟩
      · intro _ x hx
        exact inv.started_noseed (List.ne_nil_of_mem ht) x hx
      · intro i j t' k u hi hj
        rcases getElem?_concat_cases trace (InitOp.incEnqueue t) i _ hi
          with hiold | ⟨hilen, hiop⟩
        · rcases getElem?_concat_cases trace (InitOp.incEnqueue t) j _ hj
            with hjold | ⟨hjlen, hjop⟩
          · exact inv.order i j t' k u hiold hjold
          · have hilt : i < trace.length := getElem?_some_lt hiold
            omega
        · exact InitOp.noConfusion hiop

/-- Every reachable state satisfies the invariant. -/
theorem sysInv_reaches {ts : List Target} {s : Sys}
    (h : SysReaches ts s) : SysInv ts s := by
  induction h with
  | init => exact sysInv_init ts
  | step _ hst ih => exact sysInv_step ih hst

/-- Claim C2: in every reachable state of the `__initdb__`
interleaving, every seed-dump enqueue occupies a strictly earlier
trace position than every incremental enqueue: seeding is synchronous
and precedes every thread spawn, and a source thread enqueues only
after its spawn. -/
theorem seeds_enqueued_before_incremental {ts : List Target} {s : Sys}
    (h : SysReaches ts s) (i j : Nat) (t : Target) (k : SeedKind)
    (u : Target) (hi : s.trace[i]? = some (InitOp.seedEnqueue t k))
    (hj : s.trace[j]? = some (InitOp.incEnqueue u)) : i < j :=
  (sysInv_reaches h).order i j t k u hi hj

/-- The C2 witness state is reachable: the main thread runs its four
seed enqueues and the spawn, then the started source thread enqueues
one incremental batch. -/
theorem c2State_reaches : SysReaches ["localhost"] c2State :=
  (((((((SysReaches.init :
      SysReaches ["localhost"] ⟨initdbOps ["localhost"], [], []⟩)).step
    (SysStep.main (InitOp.seedEnqueue "localhost" .links)
      [InitOp.seedEnqueue "localhost" .addrs,
       InitOp.seedEnqueue "localhost" .neighbours,
       InitOp.seedEnqueue "localhost" .routes,
       InitOp.spawn "localhost", InitOp.readyEnqueue] [] [])).step
    (SysStep.main (InitOp.seedEnqueue "localhost" .addrs)
      [InitOp.seedEnqueue "localhost" .neighbours,
       InitOp.seedEnqueue "localhost" .routes,
       InitOp.spawn "localhost", InitOp.readyEnqueue] []
      [InitOp.seedEnqueue "localhost" .links])).step
    (SysStep.main (InitOp.seedEnqueue "localhost" .neighbours)
      [InitOp.seedEnqueue "localhost" .routes,
       InitOp.spawn "localhost", InitOp.readyEnqueue] []
      [InitOp.seedEnqueue "localhost" .links,
       InitOp.seedEnqueue "localhost" .addrs])).step
    (SysStep.main (InitOp.seedEnqueue "localhost" .routes)
      [InitOp.spawn "localhost", InitOp.readyEnqueue] []
      [InitOp.seedEnqueue "localhost" .links,
       InitOp.seedEnqueue "localhost" .addrs,
       InitOp.seedEnqueue "localhost" .neighbours])).step
    (SysStep.main (InitOp.spawn "localhost") [InitOp.readyEnqueue] []
      [InitOp.seedEnqueue "localhost" .links,
       InitOp.seedEnqueue "localhost" .addrs,
       InitOp.seedEnqueue "localhost" .neighbours,
       InitOp.seedEnqueue "localhost" .routes])).step
    (SysStep.inc [InitOp.readyEnqueue] ["localhost"]
      [InitOp.seedEnqueue "localhost" .links,
       InitOp.seedEnqueue "localhost" .addrs,
       InitOp.seedEnqueue "localhost" .neighbours,
       InitOp.seedEnqueue "localhost" .routes,
       InitOp.spawn "localhost"] "localhost"
      (List.mem_singleton.mpr rfl))

/-- Witness for the C2 theorem on the reachable state `c2State`: the
first seed enqueue (index 0) precedes the incremental enqueue
(index 5). -/
theorem seeds_enqueued_before_incremental_witness :
    c2State.trace[0]? = some (InitOp.seedEnqueue "localhost" .links) ∧
    c2State.trace[5]? = some (InitOp.incEnqueue "localhost") ∧
    (0 : Nat) < 5 :=
  ⟨rfl, rfl,
   seeds_enqueued_before_incremental c2State_reaches 0 5 "localhost"
     .links "localhost" rfl rfl⟩

end Pyroute2
